import Mathlib

/-!
Shallow embedding of the `taskers` kanban application (Rust sources under
`src/`).  The repository contains three variants of the application:

* `src/kanban_board.rs` + `src/task.rs` + `src/ui.rs`: a status-based board
  (`KanbanBoard`) holding a flat task list; each task carries a `status`
  string out of the fixed array `["TODO", "DOING", "DONE"]`.
* `src/main.rs`: a column-based application (`KanbanApp`) holding
  `Vec<Column>`, each column owning its tasks; selection is a column index
  plus an `Option<usize>` task index.
* `src/chatgpt.rs`: a CLI variant of `KanbanApp` adding CSV export/import.

Pure logic is translated directly; the effectful boundaries are made
explicit: the clock (`Local::now()`) becomes a `now : String` parameter,
the filesystem becomes an explicit argument describing the file's state,
and the JSON / CSV text codecs (external serialization adapters) are
modelled at the parsed-value level (a `Json` tree, a list of CSV records).
-/

set_option autoImplicit false

namespace Taskers

/-! ### `src/task.rs` — the status-based task -/

/-- `Task` from `src/task.rs`: `{id: u32, description, created_at, due_date,
status: String}`.  `id` is a `u32`; arithmetic on it is taken mod `2^32`. -/
structure Task where
  id : Nat
  description : String
  created_at : String
  due_date : String
  status : String
  deriving Repr, DecidableEq

/-! ### `src/kanban_board.rs` — the status-based board -/

/-- `KanbanBoard` from `src/kanban_board.rs`. -/
structure KanbanBoard where
  tasks : List Task
  selected_status : Nat
  selected_task : Nat
  deriving Repr, DecidableEq

/-- The fixed status array `["TODO", "DOING", "DONE"]` appearing in
`KanbanBoard::move_task` and in `ui::run_app`. -/
def statuses : List String := ["TODO", "DOING", "DONE"]

/-- `KanbanBoard::new`. -/
def KanbanBoard.new : KanbanBoard :=
  { tasks := [], selected_status := 0, selected_task := 0 }

/-- `KanbanBoard::add_task`.  The clock (`Local::now().format("%Y-%m-%d")`)
is passed in as `now`.  `self.tasks.len() as u32 + 1` is a `u32`
computation, hence the reduction mod `2^32`. -/
def KanbanBoard.add_task (b : KanbanBoard) (description due_date now : String) :
    KanbanBoard :=
  let id := (b.tasks.length + 1) % 2 ^ 32
  { b with tasks := b.tasks ++
      [{ id := id, description := description, created_at := now,
         due_date := due_date, status := "TODO" }] }

/-- `self.tasks.iter_mut().find(p)` followed by a mutation of the found
task: rewrite the first element satisfying `p`, leave the rest alone. -/
def updateFirst (p : Task → Bool) (f : Task → Task) : List Task → List Task
  | [] => []
  | t :: ts => if p t then f t :: ts else t :: updateFirst p f ts

/-- Rust's `isize::clamp(lo, hi)`. -/
def clampInt (x lo hi : Int) : Int :=
  if x < lo then lo else if x > hi then hi else x

/-- `statuses[new_status_index]` for a move in the given direction from
the given selected status:
`(selected as isize + direction).clamp(0, statuses.len() - 1)`. -/
def destStatus (sel : Nat) (direction : Int) : String :=
  statuses.getD
    ((clampInt ((sel : Int) + direction) 0 ((statuses.length : Int) - 1)).toNat) ""

/-- `KanbanBoard::move_task`.  Finds the first task whose status matches the
selected status and rewrites its status to the clamped neighbour status.
(When `selected_status` is out of bounds of `statuses` the Rust code panics
on the array index; that state is unreachable through the UI, and the model
returns the board unchanged there.) -/
def KanbanBoard.move_task (b : KanbanBoard) (direction : Int) : KanbanBoard :=
  match statuses.get? b.selected_status with
  | none => b
  | some st =>
      { b with tasks := (updateFirst (fun t => t.status == st)
          (fun t => { t with status := destStatus b.selected_status direction })
          b.tasks) }

/-- `KanbanBoard::get_tasks_by_status`. -/
def KanbanBoard.get_tasks_by_status (b : KanbanBoard) (status : String) :
    List Task :=
  b.tasks.filter (fun t => t.status == status)

/-! ### `src/ui.rs` — the interaction loop over `KanbanBoard`

`run_app` maps key events to board mutations.  Each key becomes one
constructor of `BoardOp`; the prompted strings of the `'a'` branch become
constructor arguments. -/

/-- One keyboard event handled by `ui::run_app`. -/
inductive BoardOp where
  | addB (description due_date now : String)
  | left
  | right
  | up
  | down
  | enter
  deriving Repr, DecidableEq

/-- The mutation `ui::run_app` performs for one key event. -/
def applyBoardOp (b : KanbanBoard) : BoardOp → KanbanBoard
  | .addB d dd now => b.add_task d dd now
  | .left => if b.selected_status > 0 then
      { b with selected_status := b.selected_status - 1 } else b
  | .right => if b.selected_status < statuses.length - 1 then
      { b with selected_status := b.selected_status + 1 } else b
  | .up => if b.selected_task > 0 then
      { b with selected_task := b.selected_task - 1 } else b
  | .down =>
      let max_tasks :=
        (b.get_tasks_by_status (statuses.getD b.selected_status "")).length
      if b.selected_task < max_tasks - 1 then
        { b with selected_task := b.selected_task + 1 } else b
  | .enter => b.move_task 1

/-- A whole interaction session. -/
def applyBoardOps (b : KanbanBoard) (ops : List BoardOp) : KanbanBoard :=
  ops.foldl applyBoardOp b

/-! ### `src/main.rs` — the column-based application

`Task` there has a `Uuid` id, an optional description, tags and timestamps.
The `Uuid` and the `DateTime` values are opaque to all the logic in the
program (they are only generated, stored, printed and re-parsed), so they
are modelled by their rendered strings; `Uuid::new_v4()` / `Local::now()`
become explicit parameters of `add_task`. -/

/-- `Task` from `src/main.rs` (uuid, timestamps as rendered strings,
epoch/display codecs being boundary adapters). -/
structure MTask where
  id : String
  title : String
  description : Option String
  tags : List String
  created_at : String
  due_date : Option String
  deriving Repr, DecidableEq

/-- `Column` from `src/main.rs`. -/
structure Column where
  name : String
  tasks : List MTask
  deriving Repr, DecidableEq

/-- `KanbanApp` from `src/main.rs` (the `config_path` string plays no role
in the board logic). -/
structure KanbanApp where
  columns : List Column
  selected_column : Nat
  selected_task : Option Nat
  deriving Repr, DecidableEq

/-- `Config::default()`: the three default column names. -/
def defaultColumns : List String := ["Todo", "Doing", "Done"]

/-- `KanbanApp::new` given the already-loaded column names: each name
becomes an empty column, selection starts at column 0 with no task
selected. -/
def KanbanApp.mk0 (names : List String) : KanbanApp :=
  { columns := names.map (fun n => { name := n, tasks := [] }),
    selected_column := 0, selected_task := none }

/-- `self.columns[i]` mutation: apply `f` at position `i`.  (Rust panics on
an out-of-range index; the call sites keep the index in range.) -/
def updateAt (f : Column → Column) : List Column → Nat → List Column
  | [], _ => []
  | c :: cs, 0 => f c :: cs
  | c :: cs, n + 1 => c :: updateAt f cs n

/-- `KanbanApp::previous_column`. -/
def KanbanApp.previous_column (a : KanbanApp) : KanbanApp :=
  if a.selected_column > 0 then
    { a with selected_column := a.selected_column - 1 } else a

/-- `KanbanApp::next_column` (the guard `selected_column < columns.len() - 1`
uses `usize` subtraction; for a non-empty column list it agrees with the
truncated subtraction used here). -/
def KanbanApp.next_column (a : KanbanApp) : KanbanApp :=
  if a.selected_column < a.columns.length - 1 then
    { a with selected_column := a.selected_column + 1 } else a

/-- `KanbanApp::previous_task`. -/
def KanbanApp.previous_task (a : KanbanApp) : KanbanApp :=
  match a.selected_task with
  | some i => if i > 0 then { a with selected_task := some (i - 1) } else a
  | none => a

/-- `KanbanApp::next_task`. -/
def KanbanApp.next_task (a : KanbanApp) : KanbanApp :=
  match a.selected_task with
  | some i =>
      if i < ((a.columns.getD a.selected_column
          { name := "", tasks := [] }).tasks).length - 1 then
        { a with selected_task := some (i + 1) } else a
  | none => a

/-- `KanbanApp::add_task`: the prompted field values, the fresh uuid and
the clock are the arguments; the built task is pushed onto the currently
selected column's task list. -/
def KanbanApp.add_task (a : KanbanApp) (t : MTask) : KanbanApp :=
  { a with columns :=
      (updateAt (fun c => { c with tasks := c.tasks ++ [t] })
        a.columns a.selected_column) }

/-- One keyboard event handled by `KanbanApp::run` (the `'e'` edit and
`'m'` move handlers are empty stubs in `src/main.rs`, so they appear here
as identity operations). -/
inductive AppOp where
  | addA (t : MTask)
  | leftA
  | rightA
  | upA
  | downA
  | editA
  | moveA
  deriving Repr, DecidableEq

/-- The mutation `KanbanApp::run` performs for one key event. -/
def applyAppOp (a : KanbanApp) : AppOp → KanbanApp
  | .addA t => a.add_task t
  | .leftA => a.previous_column
  | .rightA => a.next_column
  | .upA => a.previous_task
  | .downA => a.next_task
  | .editA => a
  | .moveA => a

/-- A whole interaction session of the column-based app. -/
def applyAppOps (a : KanbanApp) (ops : List AppOp) : KanbanApp :=
  ops.foldl applyAppOp a

/-! ### JSON persistence (`KanbanBoard::save_to_file` / `load_from_file`,
`KanbanApp::load_config`)

The `serde_json` text codec is an external serialization adapter; the model
works on parsed JSON trees.  A file on disk is `Option (Option Json)`:
`none` = the file does not exist, `some none` = the file exists but its
contents are not valid JSON, `some (some j)` = the file holds the JSON
value `j` (which may still fail the schema check of the target type). -/

/-- A parsed JSON value. -/
inductive Json where
  | null
  | str (s : String)
  | num (n : Nat)
  | arr (items : List Json)
  | obj (fields : List (String × Json))

/-- serde serialization of `Task` (`src/task.rs`): a JSON object listing
the fields in declaration order. -/
def taskToJson (t : Task) : Json :=
  .obj [("id", .num t.id), ("description", .str t.description),
    ("created_at", .str t.created_at), ("due_date", .str t.due_date),
    ("status", .str t.status)]

/-- serde deserialization of `Task`: field lookup by name, each with the
expected type. -/
def taskFromJson : Json → Option Task
  | .obj fields => do
      let .num id ← fields.lookup "id" | none
      let .str description ← fields.lookup "description" | none
      let .str created_at ← fields.lookup "created_at" | none
      let .str due_date ← fields.lookup "due_date" | none
      let .str status ← fields.lookup "status" | none
      some { id := id, description := description, created_at := created_at,
             due_date := due_date, status := status }
  | _ => none

/-- `serde_json::to_string_pretty(&self.tasks)` up to the text codec:
a JSON array of task objects. -/
def tasksToJson (ts : List Task) : Json :=
  .arr (ts.map taskToJson)

/-- serde's sequence deserialization: each element in turn, failing when
any element fails. -/
def tasksFromJsonList : List Json → Option (List Task)
  | [] => some []
  | j :: js => do
      let t ← taskFromJson j
      let ts ← tasksFromJsonList js
      some (t :: ts)

/-- Deserialization of `Vec<Task>`. -/
def tasksFromJson : Json → Option (List Task)
  | .arr items => tasksFromJsonList items
  | _ => none

/-- `KanbanBoard::save_to_file`: the value written to
`kanban_board.json`. -/
def KanbanBoard.save_to_file (b : KanbanBoard) : Json :=
  tasksToJson b.tasks

/-- `KanbanBoard::load_from_file` with the file state passed explicitly:
an absent file leaves `self.tasks` alone; a present file replaces it with
the parse result, falling back to the empty vector
(`unwrap_or_else(|_| Vec::new())`) when parsing fails. -/
def KanbanBoard.load_from_file (b : KanbanBoard) (file : Option (Option Json)) :
    KanbanBoard :=
  match file with
  | none => b
  | some none => { b with tasks := [] }
  | some (some j) => { b with tasks := (tasksFromJson j).getD [] }

/-- serde's sequence deserialization for `Vec<String>`. -/
def stringsFromJsonList : List Json → Option (List String)
  | [] => some []
  | .str s :: js => do
      let ss ← stringsFromJsonList js
      some (s :: ss)
  | _ => none

/-- serde deserialization of `Config` (`src/main.rs`): an object with a
`columns` field holding an array of strings. -/
def configFromJson : Json → Option (List String)
  | .obj fields =>
      match fields.lookup "columns" with
      | some (.arr items) => stringsFromJsonList items
      | _ => none
  | _ => none

/-- `KanbanApp::load_config`: an absent file yields the default config; a
read or parse failure is an `Err` (the `?` operator). -/
def load_config (file : Option (Option Json)) : Option (List String) :=
  match file with
  | none => some defaultColumns
  | some none => none
  | some (some j) => configFromJson j

/-- `KanbanApp::new`: `load_config(config_path).unwrap_or_default()`, then
one empty column per configured name. -/
def KanbanApp.new (file : Option (Option Json)) : KanbanApp :=
  KanbanApp.mk0 ((load_config file).getD defaultColumns)

/-! ### CSV export / import (`src/chatgpt.rs`)

The `csv` crate's quoting/escaping is an external text codec; the model
works on the record level: a CSV file is a list of records, each a list of
string fields.  `Uuid::to_string` / `Uuid::parse_str` and the `DateTime`
display / parse pairs are boundary codecs that round-trip on values the
program itself wrote, so uuid and `created_at` are carried as their
rendered strings.  The one observable codec in the row format — the
rendering of an `Option<DateTime>` due date as `""` for `None` — is kept:
`record.get(5).and_then(|d| d.parse().ok())` fails on the empty string. -/

/-- `task.due_date.map_or("".to_string(), |d| d.to_string())`. -/
def dueShow : Option String → String
  | none => ""
  | some d => d

/-- `record.get(5).and_then(|d| d.parse().ok())`: parsing the empty string
as a date fails, anything the program itself rendered parses back. -/
def dueParse (s : String) : Option String :=
  if s = "" then none else some s

/-- The CSV record written for task `t` of the column named `name`:
`[id, status, tag, description, created_at, due_date]`. -/
def recordOfTask (name : String) (t : MTask) : List String :=
  [t.id, name, String.intercalate ", " t.tags,
    t.description.getD "", t.created_at, dueShow t.due_date]

/-- The header row written by `save_to_csv`. -/
def csvHeader : List String :=
  ["id", "status", "tag", "description", "created_at", "due_date"]

/-- `KanbanApp::save_to_csv`: the header, then one record per task, tasks
grouped per column in column order. -/
def KanbanApp.save_to_csv (a : KanbanApp) : List (List String) :=
  csvHeader :: (a.columns.map (fun c => c.tasks.map (recordOfTask c.name))).flatten

/-- The task `load_from_csv` builds from one record: the `title` is read
from field 3 (the description field), `description` becomes
`Some(field 3)`, tags are re-split on `", "`. -/
def taskOfRecord (r : List String) : MTask :=
  { id := r.getD 0 "", title := r.getD 3 "",
    description := some (r.getD 3 ""),
    tags := (r.getD 2 "").splitOn ", ",
    created_at := r.getD 4 "",
    due_date := dueParse (r.getD 5 "") }

/-- Appending a task to the column named `name`, creating that column at
the end when no column has the name (the `columns.iter_mut().find` /
`else push` logic of `load_from_csv`). -/
def addToColumn : List Column → String → MTask → List Column
  | [], name, t => [{ name := name, tasks := [t] }]
  | c :: cs, name, t =>
      if c.name = name then { c with tasks := c.tasks ++ [t] } :: cs
      else c :: addToColumn cs name t

/-- `KanbanApp::load_from_csv`: the `csv` reader treats the first row as
the header, so only the remaining records are folded into columns. -/
def load_from_csv (records : List (List String)) : List Column :=
  (records.drop 1).foldl
    (fun cols r => addToColumn cols (r.getD 1 "") (taskOfRecord r)) []

/-- One fold step of `load_from_csv`. -/
def csvStep (cols : List Column) (r : List String) : List Column :=
  addToColumn cols (r.getD 1 "") (taskOfRecord r)

/-- What one exported task looks like after re-import. -/
def reimportTask (name : String) (t : MTask) : MTask :=
  taskOfRecord (recordOfTask name t)

/-- What one column looks like after export and re-import. -/
def reimportColumn (c : Column) : Column :=
  { name := c.name, tasks := c.tasks.map (reimportTask c.name) }

/-! ### Auxiliary sequences for the claims -/

/-- A column-selection-only interaction: `select_next_column` /
`select_previous_column` calls. -/
inductive ColNav where
  | nextC
  | prevC
  deriving Repr, DecidableEq

/-- Column navigation on the column-based app (`KanbanApp::next_column` /
`previous_column`). -/
def applyColNavApp (a : KanbanApp) (ops : List ColNav) : KanbanApp :=
  ops.foldl (fun a op =>
    match op with
    | .nextC => a.next_column
    | .prevC => a.previous_column) a

/-- Column navigation on the status-based board (the `Left` / `Right`
branches of `ui::run_app`). -/
def applyColNavBoard (b : KanbanBoard) (ops : List ColNav) : KanbanBoard :=
  ops.foldl (fun b op =>
    match op with
    | .nextC => applyBoardOp b .right
    | .prevC => applyBoardOp b .left) b

/-- A sequence of `KanbanBoard::add_task` calls, each with its prompted
description, due date and clock reading. -/
def applyAdds (b : KanbanBoard) (calls : List (String × String × String)) :
    KanbanBoard :=
  calls.foldl (fun b c => b.add_task c.1 c.2.1 c.2.2) b

/-- The list `[s, s + 1, ..., s + n - 1]`. -/
def idsFrom (s : Nat) : Nat → List Nat
  | 0 => []
  | n + 1 => s :: idsFrom (s + 1) n

/-- A placeholder column for `getD` lookups. -/
def noColumn : Column := { name := "", tasks := [] }

/-- A sample task of the column-based app, used to instantiate universally
quantified statements. -/
def sampleMTask : MTask :=
  { id := "9f0c2e5a-0000-0000-0000-000000000001", title := "T",
    description := some "desc", tags := ["a", "b"],
    created_at := "2024-01-01 00:00:00 UTC", due_date := none }

/-! ## Lemmas about the embedded operations -/

theorem updateFirst_of_not_mem {p : Task → Bool} {f : Task → Task} :
    ∀ {l : List Task}, (∀ t ∈ l, ¬ p t = true) → updateFirst p f l = l
  | [], _ => rfl
  | t :: ts, h => by
      have ht : ¬ p t = true := h t (by simp)
      simp only [updateFirst, if_neg ht]
      exact congrArg (t :: ·) (updateFirst_of_not_mem fun u hu => h u (by simp [hu]))

theorem updateFirst_append {p : Task → Bool} {f : Task → Task}
    (l₁ : List Task) (t : Task) (l₂ : List Task)
    (h₁ : ∀ u ∈ l₁, ¬ p u = true) (h₂ : p t = true) :
    updateFirst p f (l₁ ++ t :: l₂) = l₁ ++ f t :: l₂ := by
  induction l₁ with
  | nil => simp [updateFirst, h₂]
  | cons u l ih =>
      have hu : ¬ p u = true := h₁ u (by simp)
      simp only [List.cons_append, updateFirst, if_neg hu]
      exact congrArg (u :: ·) (ih fun v hv => h₁ v (by simp [hv]))

theorem updateFirst_fixed {p : Task → Bool} {f : Task → Task}
    (h : ∀ t, p t = true → f t = t) : ∀ l : List Task, updateFirst p f l = l
  | [] => rfl
  | t :: ts => by
      by_cases hp : p t = true
      · simp only [updateFirst, if_pos hp, h t hp]
      · simp only [updateFirst, if_neg hp]
        exact congrArg (t :: ·) (updateFirst_fixed h ts)

theorem updateAt_getD (f : Column → Column) :
    ∀ (cols : List Column) (i : Nat), i < cols.length →
      (updateAt f cols i).getD i noColumn = f (cols.getD i noColumn)
  | [], i, h => by simp at h
  | c :: cs, 0, _ => rfl
  | c :: cs, i + 1, h => by
      simpa [updateAt] using updateAt_getD f cs i (by simpa using h)

/-- Rewriting a task's status to the value it already has changes
nothing. -/
theorem task_set_status_self (t : Task) : { t with status := t.status } = t :=
  rfl

theorem next_column_columns (a : KanbanApp) :
    a.next_column.columns = a.columns := by
  unfold KanbanApp.next_column; split <;> rfl

theorem previous_column_columns (a : KanbanApp) :
    a.previous_column.columns = a.columns := by
  unfold KanbanApp.previous_column; split <;> rfl

theorem next_column_bound (a : KanbanApp)
    (h : a.selected_column < a.columns.length) :
    a.next_column.selected_column < a.columns.length := by
  unfold KanbanApp.next_column
  split
  · next hlt => simp only; omega
  · exact h

theorem previous_column_bound (a : KanbanApp)
    (h : a.selected_column < a.columns.length) :
    a.previous_column.selected_column < a.columns.length := by
  unfold KanbanApp.previous_column
  split
  · simp only; omega
  · exact h

theorem board_right_bound (b : KanbanBoard)
    (h : b.selected_status < statuses.length) :
    (applyBoardOp b .right).selected_status < statuses.length := by
  simp only [applyBoardOp]
  split
  · next hlt =>
      simp only
      have h3 : statuses.length = 3 := rfl
      rw [h3] at hlt ⊢
      omega
  · exact h

theorem board_left_bound (b : KanbanBoard)
    (h : b.selected_status < statuses.length) :
    (applyBoardOp b .left).selected_status < statuses.length := by
  simp only [applyBoardOp]
  split
  · simp only; omega
  · exact h

theorem applyAppOp_selected_task_none (a : KanbanApp) (op : AppOp)
    (h : a.selected_task = none) : (applyAppOp a op).selected_task = none := by
  cases op with
  | addA t => exact h
  | leftA =>
      show a.previous_column.selected_task = none
      unfold KanbanApp.previous_column; split <;> exact h
  | rightA =>
      show a.next_column.selected_task = none
      unfold KanbanApp.next_column; split <;> exact h
  | upA =>
      show a.previous_task.selected_task = none
      unfold KanbanApp.previous_task
      rw [h]
      exact h
  | downA =>
      show a.next_task.selected_task = none
      unfold KanbanApp.next_task
      rw [h]
      exact h
  | editA => exact h
  | moveA => exact h

/-- Deserializing a serialized task gives the task back. -/
theorem taskFromJson_taskToJson (t : Task) : taskFromJson (taskToJson t) = some t :=
  rfl

theorem tasksFromJsonList_map (ts : List Task) :
    tasksFromJsonList (ts.map taskToJson) = some ts := by
  induction ts with
  | nil => rfl
  | cons t ts ih => simp [tasksFromJsonList, taskFromJson_taskToJson, ih]

/-- Deserializing a serialized task list gives the list back. -/
theorem tasksFromJson_tasksToJson (ts : List Task) :
    tasksFromJson (tasksToJson ts) = some ts := by
  simpa [tasksToJson, tasksFromJson] using tasksFromJsonList_map ts

theorem add_task_ids (b : KanbanBoard) (d dd now : String) :
    (b.add_task d dd now).tasks.map Task.id
      = b.tasks.map Task.id ++ [(b.tasks.length + 1) % 2 ^ 32] := by
  simp [KanbanBoard.add_task]

theorem add_task_length (b : KanbanBoard) (d dd now : String) :
    (b.add_task d dd now).tasks.length = b.tasks.length + 1 := by
  simp [KanbanBoard.add_task]

theorem applyAdds_ids : ∀ (calls : List (String × String × String))
    (b : KanbanBoard), b.tasks.length + calls.length < 2 ^ 32 →
    (applyAdds b calls).tasks.map Task.id
      = b.tasks.map Task.id ++ idsFrom (b.tasks.length + 1) calls.length
  | [], b, _ => by simp [applyAdds, idsFrom]
  | c :: cs, b, h => by
      have hmod : (b.tasks.length + 1) % 2 ^ 32 = b.tasks.length + 1 :=
        Nat.mod_eq_of_lt (by simp only [List.length_cons] at h; omega)
      have ih := applyAdds_ids cs (b.add_task c.1 c.2.1 c.2.2)
        (by rw [add_task_length]; simp only [List.length_cons] at h; omega)
      show (applyAdds (b.add_task c.1 c.2.1 c.2.2) cs).tasks.map Task.id = _
      rw [ih, add_task_length, add_task_ids, hmod]
      simp [idsFrom]

theorem mem_idsFrom : ∀ {n s m : Nat}, m ∈ idsFrom s n → s ≤ m
  | n + 1, s, m, h => by
      rcases List.mem_cons.mp h with h1 | h2
      · omega
      · have := mem_idsFrom h2
        omega

theorem idsFrom_nodup : ∀ (n s : Nat), (idsFrom s n).Nodup
  | 0, _ => List.nodup_nil
  | n + 1, s => by
      refine List.nodup_cons.mpr ⟨fun hmem => ?_, idsFrom_nodup n (s + 1)⟩
      have := mem_idsFrom hmem
      omega

theorem addToColumn_not_found : ∀ (cols : List Column) (n : String) (t : MTask),
    (∀ c ∈ cols, ¬ c.name = n) →
    addToColumn cols n t = cols ++ [{ name := n, tasks := [t] }]
  | [], _, _, _ => rfl
  | c :: cs, n, t, h => by
      have hc : ¬ c.name = n := h c (by simp)
      simp only [addToColumn, if_neg hc, List.cons_append]
      exact congrArg (c :: ·)
        (addToColumn_not_found cs n t (fun u hu => h u (by simp [hu])))

theorem addToColumn_append (pre rest : List Column) (n : String) (t : MTask)
    (h : ∀ c ∈ pre, ¬ c.name = n) :
    addToColumn (pre ++ rest) n t = pre ++ addToColumn rest n t := by
  induction pre with
  | nil => rfl
  | cons c cs ih =>
      have hc : ¬ c.name = n := h c (by simp)
      simp only [List.cons_append, addToColumn, if_neg hc]
      exact congrArg (c :: ·) (ih (fun u hu => h u (by simp [hu])))

theorem csvFold_block : ∀ (ts : List MTask) (pre : List Column) (n : String)
    (ts0 : List MTask), (∀ c ∈ pre, ¬ c.name = n) →
    List.foldl csvStep (pre ++ [{ name := n, tasks := ts0 }])
        (ts.map (recordOfTask n))
      = pre ++ [{ name := n, tasks := ts0 ++ ts.map (reimportTask n) }]
  | [], pre, n, ts0, _ => by simp
  | t :: ts, pre, n, ts0, h => by
      show List.foldl csvStep
        (csvStep (pre ++ [{ name := n, tasks := ts0 }]) (recordOfTask n t))
        (ts.map (recordOfTask n)) = _
      have hstep : csvStep (pre ++ [{ name := n, tasks := ts0 }])
          (recordOfTask n t)
          = pre ++ [{ name := n, tasks := ts0 ++ [reimportTask n t] }] := by
        show addToColumn (pre ++ [{ name := n, tasks := ts0 }]) n
          (reimportTask n t) = _
        rw [addToColumn_append pre _ n _ h]
        simp [addToColumn]
      rw [hstep, csvFold_block ts pre n (ts0 ++ [reimportTask n t]) h]
      simp

theorem csvFold_columns : ∀ (cols : List Column) (acc : List Column),
    (cols.map Column.name).Nodup →
    (∀ c ∈ cols, ∀ a ∈ acc, ¬ a.name = c.name) →
    List.foldl csvStep acc
        ((cols.map (fun c => c.tasks.map (recordOfTask c.name))).flatten)
      = acc ++ (cols.filter (fun c => !c.tasks.isEmpty)).map reimportColumn
  | [], acc, _, _ => by simp
  | c :: cs, acc, hnd, hdisj => by
      rw [List.map_cons, List.flatten_cons, List.foldl_append]
      rw [List.map_cons, List.nodup_cons] at hnd
      obtain ⟨hcn, hnd2⟩ := hnd
      have hdisj2 : ∀ c2 ∈ cs, ∀ a ∈ acc, ¬ a.name = c2.name :=
        fun c2 h2 a ha => hdisj c2 (List.mem_cons_of_mem c h2) a ha
      cases hct : c.tasks with
      | nil =>
          simp only [hct, List.map_nil, List.foldl_nil]
          rw [csvFold_columns cs acc hnd2 hdisj2]
          congr 1
          simp [List.filter_cons, hct]
      | cons t ts =>
          simp only [hct, List.map_cons, List.foldl_cons]
          have hacc : ∀ a ∈ acc, ¬ a.name = c.name :=
            fun a ha => hdisj c (by simp) a ha
          have hstep : csvStep acc (recordOfTask c.name t)
              = acc ++ [{ name := c.name, tasks := [reimportTask c.name t] }] := by
            show addToColumn acc c.name (reimportTask c.name t) = _
            exact addToColumn_not_found acc c.name _ hacc
          rw [hstep, csvFold_block ts acc c.name [reimportTask c.name t] hacc]
          have hdisj3 : ∀ c2 ∈ cs,
              ∀ a ∈ (acc ++ [{ name := c.name, tasks :=
                ([reimportTask c.name t] ++ ts.map (reimportTask c.name)) }]),
              ¬ a.name = c2.name := by
            intro c2 h2 a ha
            rcases List.mem_append.mp ha with hmem | hmem
            · exact hdisj2 c2 h2 a hmem
            · have ha2 := List.mem_singleton.mp hmem
              subst ha2
              intro hEq
              exact hcn (hEq ▸ List.mem_map_of_mem Column.name h2)
          rw [csvFold_columns cs _ hnd2 hdisj3]
          rw [List.append_assoc]
          congr 1
          simp [List.filter_cons, hct, reimportColumn]

/-! ## The claims -/

/-- Claim C1, counterexample.  On the status-based board
(`KanbanBoard::add_task`), create a board with the second column (`DOING`)
selected and add a task: the new task's status is `TODO`, not the name of
the selected column. -/
theorem c1_counterexample :
    ¬ (((KanbanBoard.add_task
          { tasks := [], selected_status := 1, selected_task := 0 }
          "x" "2024-02-02" "2024-01-01").tasks.getLast?).map Task.status
        = some (statuses.getD 1 "")) := by decide

/-- Claim C1, amended: `KanbanBoard::add_task` always gives the new task
status `"TODO"` (the first column), regardless of which column is
selected; in the column-based app (`KanbanApp::add_task` in
`src/main.rs`), the new task is appended to the currently selected
column. -/
theorem c1_add_task_column :
    (∀ (b : KanbanBoard) (d dd now : String),
      ((b.add_task d dd now).tasks.getLast?).map Task.status = some "TODO") ∧
    (∀ (a : KanbanApp) (t : MTask), a.selected_column < a.columns.length →
      ((a.add_task t).columns.getD a.selected_column noColumn).tasks
        = (a.columns.getD a.selected_column noColumn).tasks ++ [t]) := by
  constructor
  · intro b d dd now
    simp [KanbanBoard.add_task]
  · intro a t h
    have h2 := updateAt_getD
      (fun c => { c with tasks := c.tasks ++ [t] }) a.columns a.selected_column h
    simp only [KanbanApp.add_task]
    exact congrArg Column.tasks h2

/-- Claim C1, witness: the amended statement at concrete inputs. -/
theorem c1_witness :
    (KanbanApp.mk0 defaultColumns).selected_column
        < (KanbanApp.mk0 defaultColumns).columns.length ∧
    (((KanbanApp.mk0 defaultColumns).add_task sampleMTask).columns.getD 0
        noColumn).tasks
      = ((KanbanApp.mk0 defaultColumns).columns.getD 0 noColumn).tasks
          ++ [sampleMTask] :=
  ⟨by decide, c1_add_task_column.2 (KanbanApp.mk0 defaultColumns) sampleMTask
    (by decide)⟩

/-- Claim C2, counterexample.  A board with two `TODO` tasks, `TODO`
selected and `selected_task = 1`: `move_task(forward)` moves the task at
index 0 (the first one whose status matches), not the selected task at
index 1 — the selection pair does not identify the task that is moved. -/
theorem c2_counterexample :
    (KanbanBoard.move_task
        ⟨[⟨1, "a", "2024-01-01", "2024-02-02", "TODO"⟩,
          ⟨2, "b", "2024-01-01", "2024-02-02", "TODO"⟩], 0, 1⟩ 1).tasks.map
        (fun t => (t.id, t.status))
      = [(1, "DOING"), (2, "TODO")] := by decide

/-- Claim C2, amended: `move_task` rewrites the status of the first task
in the board's flat task list whose status matches the selected column,
ignoring `selected_task_index`; when no task has the selected status (the
selected column is empty) the whole board is unchanged, and the selection
fields are never touched. -/
theorem c2_move_task_first_match (b : KanbanBoard) (dir : Int) (st : String)
    (h : statuses.get? b.selected_status = some st) :
    ((∀ t ∈ b.tasks, ¬ t.status = st) → b.move_task dir = b) ∧
    (b.move_task dir).selected_status = b.selected_status ∧
    (b.move_task dir).selected_task = b.selected_task ∧
    (∀ (l₁ : List Task) (t : Task) (l₂ : List Task), b.tasks = l₁ ++ t :: l₂ →
      (∀ u ∈ l₁, ¬ u.status = st) → t.status = st →
      (b.move_task dir).tasks
        = l₁ ++ { t with status := destStatus b.selected_status dir } :: l₂) := by
  have hb : b.move_task dir
      = { b with tasks := (updateFirst (fun u => u.status == st)
          (fun u => { u with status := destStatus b.selected_status dir })
          b.tasks) } := by
    unfold KanbanBoard.move_task
    rw [h]
  refine ⟨?_, ?_, ?_, ?_⟩
  · intro hnone
    rw [hb, updateFirst_of_not_mem (fun t ht => by simpa using hnone t ht)]
  · rw [hb]
  · rw [hb]
  · intro l₁ t l₂ hsplit h₁ ht
    rw [hb, hsplit,
      updateFirst_append l₁ t l₂ (fun u hu => by simpa using h₁ u hu)
        (by simpa using ht)]

/-- Claim C2, witness: the amended statement at a concrete board with an
empty selected column, instantiating the no-op part. -/
theorem c2_witness :
    statuses.get?
        (⟨[⟨1, "a", "2024-01-01", "2024-02-02", "TODO"⟩], 1, 0⟩ :
          KanbanBoard).selected_status = some "DOING" ∧
    KanbanBoard.move_task
        ⟨[⟨1, "a", "2024-01-01", "2024-02-02", "TODO"⟩], 1, 0⟩ 1
      = ⟨[⟨1, "a", "2024-01-01", "2024-02-02", "TODO"⟩], 1, 0⟩ :=
  ⟨by decide,
    (c2_move_task_first_match
      ⟨[⟨1, "a", "2024-01-01", "2024-02-02", "TODO"⟩], 1, 0⟩ 1 "DOING"
      (by decide)).1 (by decide)⟩

/-- Claim C3, counterexample.  A board whose only task is in `DOING` (the
non-boundary column) with `DOING` selected: `move_task(forward)` sends it
to `DONE`, but the selection still points at `DOING`, so
`move_task(backward)` finds no `DOING` task and is a no-op — the task
stays in `DONE` instead of returning to `DOING`. -/
theorem c3_counterexample :
    ¬ (((KanbanBoard.move_task
          (KanbanBoard.move_task
            ⟨[⟨1, "a", "2024-01-01", "2024-02-02", "DOING"⟩], 1, 0⟩ 1)
          (-1)).tasks.map Task.status) = ["DOING"]) ∧
    ((KanbanBoard.move_task
        (KanbanBoard.move_task
          ⟨[⟨1, "a", "2024-01-01", "2024-02-02", "DOING"⟩], 1, 0⟩ 1)
        (-1)).tasks.map Task.status) = ["DONE"] := by decide

/-- Claim C3, amended: the forward-then-backward round trip holds only
when the selection is advanced to the destination column between the two
calls; then a task of the middle column `DOING` that is the first `DOING`
task and is not preceded by any `DONE` task comes back to exactly its
original place, restoring the original task list. -/
theorem c3_round_trip (b : KanbanBoard) (l₁ : List Task) (t : Task)
    (l₂ : List Task) (hsel : b.selected_status = 1)
    (hsplit : b.tasks = l₁ ++ t :: l₂) (ht : t.status = "DOING")
    (h₁ : ∀ u ∈ l₁, ¬ u.status = "DOING")
    (h₂ : ∀ u ∈ l₁, ¬ u.status = "DONE") :
    ({ b.move_task 1 with selected_status := 2 }.move_task (-1)).tasks
      = b.tasks := by
  obtain ⟨ts, ss, sk⟩ := b
  simp only at hsel hsplit
  subst hsel
  subst hsplit
  have h1b : ∀ u ∈ l₁, ¬ (u.status == "DOING") = true :=
    fun u hu => by simpa using h₁ u hu
  have h2b : ∀ u ∈ l₁, ¬ (u.status == "DONE") = true :=
    fun u hu => by simpa using h₂ u hu
  have e1 : KanbanBoard.move_task ⟨l₁ ++ t :: l₂, 1, sk⟩ 1
      = ⟨l₁ ++ { t with status := "DONE" } :: l₂, 1, sk⟩ := by
    show (⟨(updateFirst (fun u => u.status == "DOING")
        (fun u => { u with status := "DONE" }) (l₁ ++ t :: l₂)), 1, sk⟩ :
        KanbanBoard) = _
    rw [updateFirst_append l₁ t l₂ h1b (by simpa using ht)]
  rw [e1]
  show (KanbanBoard.move_task
      ⟨l₁ ++ { t with status := "DONE" } :: l₂, 2, sk⟩ (-1)).tasks = _
  have e2 : KanbanBoard.move_task
      ⟨l₁ ++ { t with status := "DONE" } :: l₂, 2, sk⟩ (-1)
      = ⟨l₁ ++ { t with status := "DOING" } :: l₂, 2, sk⟩ := by
    show (⟨(updateFirst (fun u => u.status == "DONE")
        (fun u => { u with status := "DOING" })
        (l₁ ++ { t with status := "DONE" } :: l₂)), 2, sk⟩ : KanbanBoard) = _
    rw [updateFirst_append l₁ _ l₂ h2b (by simp)]
  rw [e2]
  show l₁ ++ { t with status := "DOING" } :: l₂ = l₁ ++ t :: l₂
  rw [← ht]

/-- Claim C3, witness: the amended round trip at a concrete one-task
board. -/
theorem c3_witness :
    (⟨[⟨1, "a", "2024-01-01", "2024-02-02", "DOING"⟩], 1, 0⟩ :
        KanbanBoard).selected_status = 1 ∧
    ({ (⟨[⟨1, "a", "2024-01-01", "2024-02-02", "DOING"⟩], 1, 0⟩ :
          KanbanBoard).move_task 1 with
        selected_status := 2 }.move_task (-1)).tasks
      = [⟨1, "a", "2024-01-01", "2024-02-02", "DOING"⟩] :=
  ⟨rfl, c3_round_trip ⟨[⟨1, "a", "2024-01-01", "2024-02-02", "DOING"⟩], 1, 0⟩
    [] ⟨1, "a", "2024-01-01", "2024-02-02", "DOING"⟩ [] rfl rfl rfl
    (by simp) (by simp)⟩

/-- Claim C4: with the last column (`DONE`, index `2 = len - 1`) selected,
`move_task(forward)` leaves the whole board unchanged: the destination
index is clamped to the last column, so the found task's status is
rewritten to the value it already has. -/
theorem c4_move_forward_last_noop (b : KanbanBoard)
    (h : b.selected_status = statuses.length - 1) :
    b.move_task 1 = b := by
  have h2 : b.selected_status = 2 := h
  have hstep : b.move_task 1
      = { b with tasks := (updateFirst (fun t => t.status == "DONE")
          (fun t => { t with status := "DONE" }) b.tasks) } := by
    unfold KanbanBoard.move_task
    rw [h2]
    rfl
  rw [hstep]
  rw [updateFirst_fixed (fun t ht => by
    have hst : t.status = "DONE" := by simpa using ht
    rw [← hst]) b.tasks]

/-- Claim C4, witness: a concrete board with the last column selected is
unchanged by `move_task 1`. -/
theorem c4_witness :
    (⟨[⟨1, "a", "2024-01-01", "2024-02-02", "DONE"⟩], 2, 0⟩ :
        KanbanBoard).selected_status = statuses.length - 1 ∧
    KanbanBoard.move_task
        ⟨[⟨1, "a", "2024-01-01", "2024-02-02", "DONE"⟩], 2, 0⟩ 1
      = ⟨[⟨1, "a", "2024-01-01", "2024-02-02", "DONE"⟩], 2, 0⟩ :=
  ⟨by decide, c4_move_forward_last_noop _ (by decide)⟩

/-- Claim C5: over any finite sequence of `select_next_column` /
`select_previous_column` calls, the selected column index stays within
`[0, len(columns) - 1]` — in the column-based app (for a non-empty column
list, where the `usize` guard `selected_column < columns.len() - 1` cannot
underflow) and likewise for the selected status of the status-based board
(whose three columns are fixed). -/
theorem c5_column_selection_bounds (ops : List ColNav) (a : KanbanApp)
    (b : KanbanBoard) (ha0 : 0 < a.columns.length)
    (ha : a.selected_column < a.columns.length)
    (hb : b.selected_status < statuses.length) :
    (applyColNavApp a ops).selected_column
        < (applyColNavApp a ops).columns.length ∧
    (applyColNavBoard b ops).selected_status < statuses.length := by
  induction ops generalizing a b with
  | nil => exact ⟨ha, hb⟩
  | cons op ops ih =>
      cases op with
      | nextC =>
          refine ih a.next_column (applyBoardOp b .right) ?_ ?_ ?_
          · rw [next_column_columns]; exact ha0
          · rw [next_column_columns]; exact next_column_bound a ha
          · exact board_right_bound b hb
      | prevC =>
          refine ih a.previous_column (applyBoardOp b .left) ?_ ?_ ?_
          · rw [previous_column_columns]; exact ha0
          · rw [previous_column_columns]; exact previous_column_bound a ha
          · exact board_left_bound b hb

/-- Claim C5, witness: five `next` then five `prev` calls on the fresh
three-column app and board (more calls than columns) keep the index in
range. -/
theorem c5_witness :
    0 < (KanbanApp.mk0 defaultColumns).columns.length ∧
    (KanbanApp.mk0 defaultColumns).selected_column
        < (KanbanApp.mk0 defaultColumns).columns.length ∧
    KanbanBoard.new.selected_status < statuses.length ∧
    (applyColNavApp (KanbanApp.mk0 defaultColumns)
        [.nextC, .nextC, .nextC, .nextC, .nextC,
          .prevC, .prevC, .prevC, .prevC, .prevC]).selected_column
      < (applyColNavApp (KanbanApp.mk0 defaultColumns)
        [.nextC, .nextC, .nextC, .nextC, .nextC,
          .prevC, .prevC, .prevC, .prevC, .prevC]).columns.length ∧
    (applyColNavBoard KanbanBoard.new
        [.nextC, .nextC, .nextC, .nextC, .nextC,
          .prevC, .prevC, .prevC, .prevC, .prevC]).selected_status
      < statuses.length :=
  ⟨by decide, by decide, by decide,
    (c5_column_selection_bounds
      [.nextC, .nextC, .nextC, .nextC, .nextC,
        .prevC, .prevC, .prevC, .prevC, .prevC]
      (KanbanApp.mk0 defaultColumns) KanbanBoard.new
      (by decide) (by decide) (by decide)).1,
    (c5_column_selection_bounds
      [.nextC, .nextC, .nextC, .nextC, .nextC,
        .prevC, .prevC, .prevC, .prevC, .prevC]
      (KanbanApp.mk0 defaultColumns) KanbanBoard.new
      (by decide) (by decide) (by decide)).2⟩

/-- Claim C6, counterexample.  In the status-based board the invariant is
not maintained: starting from a fresh board, add two tasks (they land in
`TODO`), press `Down` (task index becomes 1), press `Right` (select
`DOING`).  The selected column is now empty, yet `selected_task` — a plain
integer, with no `None` — still holds 1, outside any valid range. -/
theorem c6_counterexample :
    (applyBoardOps KanbanBoard.new
        [.addB "a" "2024-02-02" "2024-01-01",
          .addB "b" "2024-02-02" "2024-01-01", .down, .right]).selected_task
        = 1 ∧
    (applyBoardOps KanbanBoard.new
        [.addB "a" "2024-02-02" "2024-01-01",
          .addB "b" "2024-02-02" "2024-01-01", .down, .right]).get_tasks_by_status
        (statuses.getD
          (applyBoardOps KanbanBoard.new
            [.addB "a" "2024-02-02" "2024-01-01",
              .addB "b" "2024-02-02" "2024-01-01", .down, .right]).selected_status
          "")
      = [] := by decide

/-- Claim C6, amended: the claimed invariant holds only vacuously in the
column-based app — no operation ever assigns the optional task index, so
`selected_task` is `none` in every reachable state, whether or not the
selected column is empty; the status-based board stores a plain integer
index that column navigation does not reset, so there it can point outside
the selected column (see the counterexample). -/
theorem c6_selected_task_always_none (file : Option (Option Json))
    (ops : List AppOp) :
    (applyAppOps (KanbanApp.new file) ops).selected_task = none := by
  suffices h : ∀ (a : KanbanApp), a.selected_task = none →
      (applyAppOps a ops).selected_task = none from
    h (KanbanApp.new file) rfl
  induction ops with
  | nil => exact fun a ha => ha
  | cons op ops ih =>
      exact fun a ha => ih (applyAppOp a op) (applyAppOp_selected_task_none a op ha)

/-- Claim C7: the save-then-load round trip restores the persisted board
content exactly.  `save_to_file` writes the task list; loading it back into
any board replaces that board's tasks with the saved ones, field for field
(ids, descriptions, statuses and the timestamp strings at their serialized
precision).  The column structure is the fixed `statuses` array, which is
not part of the persisted state and is identical by construction. -/
theorem c7_save_load_round_trip (b b2 : KanbanBoard) :
    b2.load_from_file (some (some b.save_to_file)) = { b2 with tasks := b.tasks } := by
  show { b2 with tasks := (tasksFromJson (tasksToJson b.tasks)).getD [] }
    = { b2 with tasks := b.tasks }
  rw [tasksFromJson_tasksToJson]
  rfl

/-- Claim C8: loading never aborts.  An absent `kanban_board.json` leaves
the fresh board's task set empty; a file that is not valid JSON, or whose
JSON does not describe a task list, yields the empty task set
(`unwrap_or_else(|_| Vec::new())`).  On the config side (`load_config` in
`src/main.rs`), an absent, unreadable or unparsable config file falls back
to the default `Todo`/`Doing`/`Done` column set with empty columns
(`unwrap_or_default()`). -/
theorem c8_load_never_aborts (b : KanbanBoard) (j : Json)
    (hj : tasksFromJson j = none) :
    (KanbanBoard.new.load_from_file none).tasks = [] ∧
    (b.load_from_file (some none)).tasks = [] ∧
    (b.load_from_file (some (some j))).tasks = [] ∧
    (KanbanApp.new none).columns.map Column.name = defaultColumns ∧
    ((KanbanApp.new none).columns.all fun c => c.tasks.isEmpty) = true ∧
    (KanbanApp.new (some none)).columns.map Column.name = defaultColumns ∧
    (∀ j2 : Json, configFromJson j2 = none →
      (KanbanApp.new (some (some j2))).columns.map Column.name
        = defaultColumns) := by
  refine ⟨rfl, rfl, ?_, rfl, rfl, rfl, ?_⟩
  · show (tasksFromJson j).getD [] = []
    rw [hj]
    rfl
  · intro j2 h2
    show (KanbanApp.mk0 ((configFromJson j2).getD defaultColumns)).columns.map
      Column.name = defaultColumns
    rw [h2]
    rfl

/-- Claim C8, witness: a present file holding the JSON value `null` (which
is not a task list) loads as the empty task set. -/
theorem c8_witness :
    tasksFromJson Json.null = none ∧
    (KanbanBoard.new.load_from_file (some (some Json.null))).tasks = [] :=
  ⟨rfl, (c8_load_never_aborts KanbanBoard.new Json.null rfl).2.2.1⟩

/-- Claim C9, counterexample.  A one-column board whose single task has no
description (`description = None`): the CSV row stores the empty string
(`unwrap_or_default`), and re-import reads it back as `Some("")` — the
re-imported description differs from the original, so the id/status/
description round trip fails as stated. -/
theorem c9_counterexample :
    (load_from_csv (KanbanApp.save_to_csv
        ⟨[⟨"Todo",
            [⟨"9f0c2e5a-0000-0000-0000-000000000002", "T", none, ["x"],
              "2024-01-01 00:00:00 UTC", none⟩]⟩], 0, none⟩)).map
        (fun c => c.tasks.map MTask.description)
      = [[some ""]] ∧ (none : Option String) ≠ some "" := by decide

/-- Claim C9, amended: exporting and re-importing reproduces, for every
task, the id and the status (the name of the containing column, with
non-empty columns kept in order; empty columns write no rows and vanish),
and reproduces the description when one is present — a task whose
description is `None` comes back with `Some ""` (and the re-imported
`title` is the description field, since `load_from_csv` reads both from
column 3 of the row). -/
theorem c9_csv_round_trip (a : KanbanApp)
    (h : (a.columns.map Column.name).Nodup) :
    load_from_csv a.save_to_csv
        = (a.columns.filter (fun c => !c.tasks.isEmpty)).map reimportColumn ∧
    (∀ (n : String) (t : MTask), (reimportTask n t).id = t.id ∧
      (reimportTask n t).description = some (t.description.getD "")) := by
  constructor
  · show List.foldl csvStep []
        ((a.columns.map (fun c => c.tasks.map (recordOfTask c.name))).flatten)
      = _
    exact csvFold_columns a.columns [] h (by simp)
  · intro n t
    exact ⟨rfl, rfl⟩

/-- Claim C9, witness: the amended round trip on a concrete two-column
board. -/
theorem c9_witness :
    ((⟨[⟨"Todo", [sampleMTask]⟩, ⟨"Doing", []⟩], 0, none⟩ :
        KanbanApp).columns.map Column.name).Nodup ∧
    load_from_csv (KanbanApp.save_to_csv
        ⟨[⟨"Todo", [sampleMTask]⟩, ⟨"Doing", []⟩], 0, none⟩)
      = ((⟨[⟨"Todo", [sampleMTask]⟩, ⟨"Doing", []⟩], 0, none⟩ :
          KanbanApp).columns.filter (fun c => !c.tasks.isEmpty)).map
          reimportColumn :=
  ⟨by decide,
    (c9_csv_round_trip ⟨[⟨"Todo", [sampleMTask]⟩, ⟨"Doing", []⟩], 0, none⟩
      (by decide)).1⟩

/-- Claim C10: `add_task` assigns the new task the id
`tasks.len() + 1` (as a `u32`, hence below `2^32`, which every reachable
in-memory board satisfies); a board built from the fresh board solely by
`add_task` calls has ids exactly `1, 2, ..., n`, pairwise distinct; and
after loading a file whose tasks carry arbitrary ids, `add_task` can
produce a duplicate id — loading a single task with id 2 and adding one
task yields ids `[2, 2]`. -/
theorem c10_id_assignment :
    (∀ (b : KanbanBoard) (d dd now : String), b.tasks.length + 1 < 2 ^ 32 →
      ((b.add_task d dd now).tasks.getLast?).map Task.id
        = some (b.tasks.length + 1)) ∧
    (∀ calls : List (String × String × String), calls.length < 2 ^ 32 →
      (applyAdds KanbanBoard.new calls).tasks.map Task.id
          = idsFrom 1 calls.length ∧
      ((applyAdds KanbanBoard.new calls).tasks.map Task.id).Nodup) ∧
    ((KanbanBoard.load_from_file KanbanBoard.new
        (some (some (tasksToJson
          [⟨2, "x", "2024-01-01", "2024-02-02", "TODO"⟩])))).add_task
        "y" "2024-02-02" "2024-01-01").tasks.map Task.id = [2, 2] := by
  refine ⟨?_, ?_, by decide⟩
  · intro b d dd now h
    have hm : (b.tasks.length + 1) % 2 ^ 32 = b.tasks.length + 1 :=
      Nat.mod_eq_of_lt h
    simp [KanbanBoard.add_task, hm]
    exact h
  · intro calls h
    have hids := applyAdds_ids calls KanbanBoard.new
      (by simpa [KanbanBoard.new] using h)
    rw [hids]
    exact ⟨rfl, idsFrom_nodup _ _⟩

/-- Claim C10, witness: two `add_task` calls on the fresh board produce
ids `[1, 2]`, and the first one appends id `0 + 1`. -/
theorem c10_witness :
    KanbanBoard.new.tasks.length + 1 < 2 ^ 32 ∧
    ((KanbanBoard.new.add_task "a" "2024-02-02" "2024-01-01").tasks.getLast?).map
        Task.id = some 1 ∧
    ([("a", "2024-02-02", "2024-01-01"), ("b", "2024-02-02", "2024-01-01")] :
        List (String × String × String)).length < 2 ^ 32 ∧
    (applyAdds KanbanBoard.new
        [("a", "2024-02-02", "2024-01-01"),
          ("b", "2024-02-02", "2024-01-01")]).tasks.map Task.id = idsFrom 1 2 :=
  ⟨by decide,
    c10_id_assignment.1 KanbanBoard.new "a" "2024-02-02" "2024-01-01" (by decide),
    by decide,
    (c10_id_assignment.2.1
      [("a", "2024-02-02", "2024-01-01"), ("b", "2024-02-02", "2024-01-01")]
      (by decide)).1⟩

end Taskers
